import Mathlib

/-!
Verification of the analytics core of the learning-dashboard application
(`src/components/LearningDashboard/page.tsx`). The computation is embedded
shallowly: JS numbers are modelled as exact rationals (`ℚ`), `Math.round`
as `jsRound`, JS objects keyed by numeric learner ids as association lists
built by the same insert-or-update folds the source performs, and the
`computeAnalytics` memo as a total function from the snapshot sequence to
`Option Analytics`. List order of the produced learner lists follows
processing order; the properties verified here are order-independent.
-/

namespace Dashboard

/-- One normalized row of an imported report (`ExcelRow` in the source).
`completion` is the already-coerced numeric value of
`Curriculum Completion Percentage` (the source applies
`parseFloat(String(x)) || 0` at the ingestion boundary, so malformed
values arrive here as 0). -/
structure ExcelRow where
  userId : Int
  firstName : String
  lastName : String
  email : String
  district : String
  userStatus : String
  creationDate : String
  lastAccess : String
  courseTitle : String
  statusGroup : String
  completion : ℚ
deriving DecidableEq, Inhabited

/-- A course derived from one row (`Course` in the source). -/
structure Course where
  title : String
  completion : ℚ
  status : String
deriving DecidableEq, Inhabited

/-- One imported report (`Snapshot` in the source): a name and its rows. -/
structure Snapshot where
  name : String
  rows : List ExcelRow
deriving DecidableEq, Inhabited

/-- Per-learner aggregate being accumulated by the row aggregator
(`LearnerProgress` in the source). -/
structure LearnerProgress where
  id : Int
  name : String
  email : String
  district : String
  courses : List Course
  totalCompletion : ℚ
  completed : Nat
  inProgress : Nat
  notStarted : Nat
deriving DecidableEq, Inhabited

/-- A finished learner record (`Learner` in the source); the optional
fields `week1Avg`/`week2Avg`/`recentAvgs` are set only by the
cross-snapshot enrichment. -/
structure Learner where
  id : Int
  name : String
  email : String
  district : String
  courses : List Course
  totalCompletion : ℚ
  completed : Nat
  inProgress : Nat
  notStarted : Nat
  avgCompletion : Int
  level : String
  week1Avg : Option Int
  week2Avg : Option Int
  recentAvgs : List (Option Int)
deriving DecidableEq, Inhabited

/-- One per-snapshot aggregate for time-series charting
(`MonthlyData` in the source). -/
structure MonthlyData where
  month : String
  learners : Nat
  avg : Int
  completed : Nat
  inProgress : Nat
  notStarted : Nat
deriving DecidableEq, Inhabited

/-- The full analytics result (`Analytics` in the source). -/
structure Analytics where
  totalLearners : Nat
  improvedLearners : Nat
  supportNeeded : List Learner
  improvedList : List Learner
  supportList : List Learner
  failedStudents : List Learner
  finishedStudents : List Learner
  consistentCompleters : List Learner
  averageCompletion : Int
  learners : List Learner
  monthlyData : List MonthlyData
deriving DecidableEq, Inhabited

/-- JavaScript `Math.round` on exact rationals: round half toward
positive infinity, i.e. `⌊x + 1/2⌋`. -/
def jsRound (x : ℚ) : Int := ⌊x + 1/2⌋

/-- The `Course` built from a row (title / completion / status group). -/
def courseOfRow (r : ExcelRow) : Course :=
  { title := r.courseTitle, completion := r.completion, status := r.statusGroup }

/-- Fresh `LearnerProgress` seeded from the first row seen for an id. -/
def initLP (r : ExcelRow) : LearnerProgress :=
  { id := r.userId
    name := r.firstName ++ " " ++ r.lastName
    email := r.email
    district := r.district
    courses := []
    totalCompletion := 0
    completed := 0
    inProgress := 0
    notStarted := 0 }

/-- Effect of one row on its learner's aggregate: push the course, add the
completion to the running sum, and bump exactly one bucket counter
(`>= 100` completed, else `1 <= c < 100` in progress, else not started). -/
def addRow (lp : LearnerProgress) (r : ExcelRow) : LearnerProgress :=
  let c := r.completion
  let lp1 := { lp with
    courses := lp.courses ++ [courseOfRow r]
    totalCompletion := lp.totalCompletion + c }
  if 100 ≤ c then { lp1 with completed := lp1.completed + 1 }
  else if 1 ≤ c ∧ c < 100 then { lp1 with inProgress := lp1.inProgress + 1 }
  else { lp1 with notStarted := lp1.notStarted + 1 }

/-- Processing of one row by the aggregation loop: create the record if
its id is new (first row wins for name/email/district), then apply
`addRow` to the record with that id. -/
def lpStep (acc : List LearnerProgress) (r : ExcelRow) : List LearnerProgress :=
  let acc1 := if acc.any (fun lp => lp.id == r.userId) then acc else acc ++ [initLP r]
  acc1.map (fun lp => if lp.id == r.userId then addRow lp r else lp)

/-- The row aggregator (`learnerProgress` in the source): fold the rows of
one snapshot into per-learner aggregates, keyed by learner id. -/
def learnerProgress (rows : List ExcelRow) : List LearnerProgress :=
  rows.foldl lpStep []

/-- Finish one aggregate into a `Learner`: derive `avgCompletion`
(rounded mean, 0 when no courses) and the level tag. -/
def mkLearner (lp : LearnerProgress) : Learner :=
  { id := lp.id
    name := lp.name
    email := lp.email
    district := lp.district
    courses := lp.courses
    totalCompletion := lp.totalCompletion
    completed := lp.completed
    inProgress := lp.inProgress
    notStarted := lp.notStarted
    avgCompletion :=
      if 0 < lp.courses.length then jsRound (lp.totalCompletion / (lp.courses.length : ℚ))
      else 0
    level :=
      if 3 ≤ lp.completed then "Advanced"
      else if 1 ≤ lp.completed then "Intermediate"
      else "Beginner"
    week1Avg := none
    week2Avg := none
    recentAvgs := [] }

/-- The `learners` array of the source: aggregates of the given rows,
finished into `Learner` records. -/
def learners (rows : List ExcelRow) : List Learner :=
  (learnerProgress rows).map mkLearner

/-- One step of the per-snapshot average-map accumulation (`avgMap` in the
source): running `(total, count)` per learner id. -/
def accumTC (m : List (Int × ℚ × Nat)) (uid : Int) (v : ℚ) : List (Int × ℚ × Nat) :=
  if m.any (fun p => p.1 == uid) then
    m.map (fun p => if p.1 == uid then (p.1, p.2.1 + v, p.2.2 + 1) else p)
  else m ++ [(uid, v, 1)]

/-- The `(total, count)` entries of `avgMap` for one snapshot's rows. -/
def avgMapEntries (rows : List ExcelRow) : List (Int × ℚ × Nat) :=
  rows.foldl (fun m r => accumTC m r.userId r.completion) []

/-- Final value of one average-map entry: `Math.round(total / Math.max(1, count))`. -/
def avgEntryValue (p : Int × ℚ × Nat) : Int :=
  jsRound (p.2.1 / ((max 1 p.2.2 : ℕ) : ℚ))

/-- Lookup in the per-snapshot average map (`avg[id]`, absent ids give `none`). -/
def avgLookup (rows : List ExcelRow) (uid : Int) : Option Int :=
  ((avgMapEntries rows).find? (fun p => p.1 == uid)).map avgEntryValue

/-- The key list of a per-snapshot average map. -/
def avgMapKeys (rows : List ExcelRow) : List Int :=
  (avgMapEntries rows).map (fun p => p.1)

/-- Insertion into a JS `Set` materialised as a list: keep the first
occurrence of each id, in insertion order. -/
def insertId (acc : List Int) (uid : Int) : List Int :=
  if uid ∈ acc then acc else acc ++ [uid]

/-- `allIds` of the source: the deduplicated union of the key sets of the
average maps of EVERY snapshot in the sequence
(`new Set(avgMaps.flatMap(m => Object.keys(m)))`). -/
def allIds (snaps : List Snapshot) : List Int :=
  ((snaps.map (fun s => avgMapKeys s.rows)).flatten).foldl insertId []

/-- Default used for (never-reached) out-of-range snapshot indexing. -/
def emptySnap : Snapshot := { name := "", rows := [] }

/-- Rows of the last snapshot (`snapshots[snapshots.length - 1].rows`). -/
def lastRows (snaps : List Snapshot) : List ExcelRow :=
  (snaps.getD (snaps.length - 1) emptySnap).rows

/-- Rows of the second-to-last snapshot (`snap1` in the source). -/
def snapPrevRows (snaps : List Snapshot) : List ExcelRow :=
  (snaps.getD (snaps.length - 2) emptySnap).rows

/-- Rows of the last snapshot as used by the comparison (`snap2`). -/
def snapCurrRows (snaps : List Snapshot) : List ExcelRow :=
  (snaps.getD (snaps.length - 1) emptySnap).rows

/-- The `learners` array of the analytics run: row aggregation of the
last snapshot. -/
def learnersOf (snaps : List Snapshot) : List Learner :=
  learners (lastRows snaps)

/-- `v1 = a1[id] ?? 0`: previous-snapshot average, 0 when absent. -/
def v1Of (snaps : List Snapshot) (uid : Int) : Int :=
  (avgLookup (snapPrevRows snaps) uid).getD 0

/-- `v2 = a2[id] ?? 0`: current-snapshot average, 0 when absent. -/
def v2Of (snaps : List Snapshot) (uid : Int) : Int :=
  (avgLookup (snapCurrRows snaps) uid).getD 0

/-- `avgMaps[i][id]`: average of learner `uid` in snapshot `i`, `none`
when the learner is absent from that snapshot. -/
def avgMapsAt (snaps : List Snapshot) (i : Nat) (uid : Int) : Option Int :=
  avgLookup ((snaps.getD i emptySnap).rows) uid

/-- The recent-window construction: per-snapshot averages (or `none`) for
snapshot indices `[max(0, N-4), N)`, oldest first. -/
def recentAvgsFor (snaps : List Snapshot) (uid : Int) : List (Option Int) :=
  (List.range' (snaps.length - 4) (snaps.length - (snaps.length - 4))).map
    (fun i => avgMapsAt snaps i uid)

/-- `findRowAcrossSnapshots`: scan snapshots from newest to oldest for the
first row carrying the given learner id. -/
def findRowAcrossSnapshots (snaps : List Snapshot) (uid : Int) : Option ExcelRow :=
  snaps.reverse.findSome? (fun s => s.rows.find? (fun r => r.userId == uid))

/-- Rows for one id collected from the current then the previous snapshot
(fallback path of the comparison loop). -/
def rowsForId (snaps : List Snapshot) (uid : Int) : List ExcelRow :=
  (snapCurrRows snaps).filter (fun r => r.userId == uid)
    ++ (snapPrevRows snaps).filter (fun r => r.userId == uid)

/-- The synthesized learner built when an id in the comparison is absent
from the last snapshot's aggregation. -/
def synthLearner (snaps : List Snapshot) (uid : Int) : Learner :=
  let rowSource := findRowAcrossSnapshots snaps uid
  let courses := (rowsForId snaps uid).map courseOfRow
  { id := uid
    name := match rowSource with
      | some r => r.firstName ++ " " ++ r.lastName
      | none => toString uid
    email := (rowSource.map (fun r => r.email)).getD ""
    district := (rowSource.map (fun r => r.district)).getD ""
    courses := courses
    totalCompletion := (courses.map (fun c => c.completion)).sum
    completed := courses.countP (fun c => decide (100 ≤ c.completion))
    inProgress := courses.countP (fun c => decide (1 ≤ c.completion ∧ c.completion < 100))
    notStarted := courses.countP (fun c => decide (c.completion < 1))
    avgCompletion := v2Of snaps uid
    level := ""
    week1Avg := some (v1Of snaps uid)
    week2Avg := some (v2Of snaps uid)
    recentAvgs := recentAvgsFor snaps uid }

/-- The learner pushed by the comparison loop for one id: the last-snapshot
record enriched with the comparison fields when present there, the
synthesized record otherwise. -/
def enrichFor (snaps : List Snapshot) (uid : Int) : Learner :=
  match (learnersOf snaps).find? (fun l => l.id == uid) with
  | some ex =>
      { ex with
        week1Avg := some (v1Of snaps uid)
        week2Avg := some (v2Of snaps uid)
        avgCompletion := v2Of snaps uid
        recentAvgs := recentAvgsFor snaps uid }
  | none => synthLearner snaps uid

/-- The classification loop over the considered ids: `v1 < v2` appends to
the improved list, `v1 == v2` appends to the support list, otherwise the
learner is dropped. Returns (improved, support) in processing order. -/
def classifyIds (snaps : List Snapshot) : List Int → List Learner × List Learner
  | [] => ([], [])
  | uid :: rest =>
      let res := classifyIds snaps rest
      if v1Of snaps uid < v2Of snaps uid then (enrichFor snaps uid :: res.1, res.2)
      else if v1Of snaps uid = v2Of snaps uid then (res.1, enrichFor snaps uid :: res.2)
      else res

/-- The two-snapshot comparison: runs only when at least 2 snapshots
exist, over `allIds`. -/
def comparison (snaps : List Snapshot) : List Learner × List Learner :=
  if 2 ≤ snaps.length then classifyIds snaps (allIds snaps) else ([], [])

/-- `improvedList` as produced by the comparison. -/
def improvedList (snaps : List Snapshot) : List Learner :=
  (comparison snaps).1

/-- The support list as produced by the comparison, BEFORE the
finished-learner exclusion; this is the array the returned
`supportNeeded` field keeps pointing at. -/
def supportPre (snaps : List Snapshot) : List Learner :=
  (comparison snaps).2

/-- Number of snapshots whose average for `uid` (0 when absent) is ≥ 100. -/
def count100 (snaps : List Snapshot) (uid : Int) : Nat :=
  (snaps.map (fun s => (avgLookup s.rows uid).getD 0)).countP (fun v => decide (100 ≤ v))

/-- Learner ids of the last-snapshot aggregation, deduplicated the way the
source's `new Set(learners.map(l => l.id))` does. -/
def learnerIdsOf (snaps : List Snapshot) : List Int :=
  ((learnersOf snaps).map (fun l => l.id)).foldl insertId []

/-- `finishedStudents`: last-snapshot learners whose average is ≥ 100 in
at least two snapshots of the whole sequence. -/
def finishedStudents (snaps : List Snapshot) : List Learner :=
  if 0 < snaps.length then
    (learnerIdsOf snaps).filterMap (fun uid =>
      if 2 ≤ count100 snaps uid then (learnersOf snaps).find? (fun l => l.id == uid)
      else none)
  else []

/-- `consistentCompleters`: the finished-scan loop pushes a copy of the
same record to this list whenever it pushes to `finishedStudents`. -/
def consistentCompleters (snaps : List Snapshot) : List Learner :=
  if 0 < snaps.length then
    (learnerIdsOf snaps).filterMap (fun uid =>
      if 2 ≤ count100 snaps uid then (learnersOf snaps).find? (fun l => l.id == uid)
      else none)
  else []

/-- The support list actually returned: the comparison's support list with
every finished learner removed (the filter runs only when the finished
list is non-empty). -/
def supportListFinal (snaps : List Snapshot) : List Learner :=
  let fin := finishedStudents snaps
  if 0 < fin.length then
    (supportPre snaps).filter (fun s => !((fin.map (fun f => f.id)).contains s.id))
  else supportPre snaps

/-- `failedStudents`: last-snapshot learners behind (< 25 average) with at
least one in-progress course. -/
def failedStudents (snaps : List Snapshot) : List Learner :=
  (learnersOf snaps).filter (fun l => decide (l.avgCompletion < 25 ∧ 0 < l.inProgress))

/-- Population average completion over the last snapshot's learners. -/
def averageCompletionOf (snaps : List Snapshot) : Int :=
  let ls := learnersOf snaps
  if 0 < ls.length then
    jsRound ((((ls.map (fun l => l.avgCompletion)).sum : Int) : ℚ) / (ls.length : ℚ))
  else 0

/-- `totalLearners`: distinct ids among the last snapshot's rows. -/
def totalLearnersOf (snaps : List Snapshot) : Nat :=
  (((lastRows snaps).map (fun r => r.userId)).foldl insertId []).length

/-- One `MonthlyData` record for snapshot `idx`. -/
def monthlyDatum (idx : Nat) (s : Snapshot) : MonthlyData :=
  let learnerAvgs := (avgMapEntries s.rows).map avgEntryValue
  { month := if s.name = "" then "Week " ++ toString (idx + 1) else s.name
    learners := learnerAvgs.length
    avg :=
      if 0 < learnerAvgs.length then
        jsRound (((learnerAvgs.sum : Int) : ℚ) / (learnerAvgs.length : ℚ))
      else 0
    completed := learnerAvgs.countP (fun v => decide (100 ≤ v))
    inProgress := learnerAvgs.countP (fun v => decide (1 ≤ v ∧ v < 100))
    notStarted := learnerAvgs.countP (fun v => decide (¬ 100 ≤ v ∧ ¬ (1 ≤ v ∧ v < 100))) }

/-- The per-snapshot time series (`monthlyData`). -/
def monthlyDataOf (snaps : List Snapshot) : List MonthlyData :=
  snaps.enum.map (fun p => monthlyDatum p.1 p.2)

/-- The analytics memo: `null` on an empty snapshot sequence, the full
structure otherwise. `supportNeeded` keeps the pre-exclusion support
array (the source reassigns the `supportList` binding after aliasing). -/
def computeAnalytics (snaps : List Snapshot) : Option Analytics :=
  if snaps.isEmpty then none
  else some
    { totalLearners := totalLearnersOf snaps
      improvedLearners := (improvedList snaps).length
      supportNeeded := supportPre snaps
      improvedList := improvedList snaps
      supportList := supportListFinal snaps
      failedStudents := failedStudents snaps
      finishedStudents := finishedStudents snaps
      consistentCompleters := consistentCompleters snaps
      averageCompletion := averageCompletionOf snaps
      learners := learnersOf snaps
      monthlyData := monthlyDataOf snaps }

/-- CSV export: the first non-null entry of a recent-averages window
(the `for v of recent { if v != null break }` scan). -/
def firstKnown : List (Option Int) → Option Int
  | [] => none
  | some v :: _ => some v
  | none :: rest => firstKnown rest

/-- CSV export: the last non-null entry (backwards scan of the source). -/
def lastKnown (xs : List (Option Int)) : Option Int :=
  firstKnown xs.reverse

/-- The value of the `Δ` column of one exported learner row:
`last - first` rendered as a decimal string followed by `%`, empty when
either endpoint is unknown. -/
def rowDelta (l : Learner) : String :=
  match firstKnown l.recentAvgs, lastKnown l.recentAvgs with
  | some f, some s => toString (s - f) ++ "%"
  | _, _ => ""

/-! Concrete inputs used to instantiate the verified statements. -/

/-- A row with the fields the analytics core reads. -/
def mkRow (uid : Int) (fn ln title : String) (c : ℚ) : ExcelRow :=
  { userId := uid, firstName := fn, lastName := ln, email := "", district := ""
    userStatus := "", creationDate := "", lastAccess := "", courseTitle := title
    statusGroup := "", completion := c }

/-- First report of the two-report scenario: Alice at 40, Bob at 100. -/
def snapA : Snapshot := ⟨"A", [mkRow 1 "Alice" "L" "Math" 40, mkRow 2 "Bob" "L" "Math" 100]⟩

/-- Second report: Alice improves to 60, Bob stays at 100. -/
def snapB : Snapshot := ⟨"B", [mkRow 1 "Alice" "L" "Math" 60, mkRow 2 "Bob" "L" "Math" 100]⟩

/-- The two-report scenario. -/
def snapsAB : List Snapshot := [snapA, snapB]

/-- Oldest report of the three-report sequence: learner 2 appears only here. -/
def snapOld : Snapshot := ⟨"S0", [mkRow 2 "Old" "Y" "Sci" 50]⟩

/-- Middle report: only learner 1. -/
def snapMid : Snapshot := ⟨"S1", [mkRow 1 "Ann" "X" "Sci" 60]⟩

/-- Newest report: only learner 1. -/
def snapNew : Snapshot := ⟨"S2", [mkRow 1 "Ann" "X" "Sci" 70]⟩

/-- Three reports where learner 2 is absent from the last two. -/
def snapsOld3 : List Snapshot := [snapOld, snapMid, snapNew]

/-- Two courses at 50 and 51 for one learner (rounding example). -/
def roundingRows : List ExcelRow := [mkRow 1 "A" "B" "M1" 50, mkRow 1 "A" "B" "M2" 51]

/-- The learner record aggregated from `roundingRows`. -/
def lrnR : Learner :=
  { id := 1, name := "A" ++ " " ++ "B", email := "", district := ""
    courses := [{ title := "M1", completion := 50, status := "" },
                { title := "M2", completion := 51, status := "" }]
    totalCompletion := 101, completed := 0, inProgress := 2, notStarted := 0
    avgCompletion := 51, level := "Beginner"
    week1Avg := none, week2Avg := none, recentAvgs := [] }

/-- Alice's enriched record in the two-report scenario. -/
def lrnAlice : Learner :=
  { id := 1, name := "Alice" ++ " " ++ "L", email := "", district := ""
    courses := [{ title := "Math", completion := 60, status := "" }]
    totalCompletion := 60, completed := 0, inProgress := 1, notStarted := 0
    avgCompletion := 60, level := "Beginner"
    week1Avg := some 40, week2Avg := some 60, recentAvgs := [some 40, some 60] }

/-- Bob's plain last-snapshot record in the two-report scenario. -/
def lrnBob : Learner :=
  { id := 2, name := "Bob" ++ " " ++ "L", email := "", district := ""
    courses := [{ title := "Math", completion := 100, status := "" }]
    totalCompletion := 100, completed := 1, inProgress := 0, notStarted := 0
    avgCompletion := 100, level := "Intermediate"
    week1Avg := none, week2Avg := none, recentAvgs := [] }

/-- Bob's enriched record as pushed onto the pre-exclusion support list. -/
def lrnBobSup : Learner :=
  { id := 2, name := "Bob" ++ " " ++ "L", email := "", district := ""
    courses := [{ title := "Math", completion := 100, status := "" }]
    totalCompletion := 100, completed := 1, inProgress := 0, notStarted := 0
    avgCompletion := 100, level := "Intermediate"
    week1Avg := some 100, week2Avg := some 100, recentAvgs := [some 100, some 100] }

/-- The synthesized record for learner 2 of `snapsOld3` (absent from the
last two reports). -/
def lrnOld2 : Learner :=
  { id := 2, name := "Old" ++ " " ++ "Y", email := "", district := ""
    courses := [], totalCompletion := 0, completed := 0, inProgress := 0, notStarted := 0
    avgCompletion := 0, level := ""
    week1Avg := some 0, week2Avg := some 0, recentAvgs := [some 50, none, none] }

/-! Evaluation of the pipeline on the concrete inputs. -/

theorem eval_learners_rounding : learners roundingRows = [lrnR] := by
  norm_num [learners, learnerProgress, lpStep, initLP, addRow, courseOfRow, mkLearner,
    jsRound, roundingRows, mkRow, lrnR]

theorem eval_allIds_AB : allIds snapsAB = [1, 2] := by
  norm_num [allIds, avgMapKeys, avgMapEntries, accumTC, insertId, snapA, snapB, snapsAB, mkRow]

theorem eval_improved_AB : improvedList snapsAB = [lrnAlice] := by
  norm_num [improvedList, comparison, classifyIds, allIds, avgMapKeys, avgMapEntries, accumTC,
    avgLookup, avgEntryValue, insertId, v1Of, v2Of, snapPrevRows, snapCurrRows, lastRows,
    learnersOf, enrichFor, synthLearner, findRowAcrossSnapshots, rowsForId, recentAvgsFor,
    avgMapsAt, emptySnap, learners, learnerProgress, lpStep, initLP, addRow, courseOfRow,
    mkLearner, jsRound, snapA, snapB, snapsAB, mkRow, List.range', lrnAlice]

theorem eval_supportPre_AB : supportPre snapsAB = [lrnBobSup] := by
  norm_num [supportPre, comparison, classifyIds, allIds, avgMapKeys, avgMapEntries, accumTC,
    avgLookup, avgEntryValue, insertId, v1Of, v2Of, snapPrevRows, snapCurrRows, lastRows,
    learnersOf, enrichFor, synthLearner, findRowAcrossSnapshots, rowsForId, recentAvgsFor,
    avgMapsAt, emptySnap, learners, learnerProgress, lpStep, initLP, addRow, courseOfRow,
    mkLearner, jsRound, snapA, snapB, snapsAB, mkRow, List.range', lrnBobSup]

theorem eval_finished_AB : finishedStudents snapsAB = [lrnBob] := by
  norm_num [finishedStudents, learnerIdsOf, count100, learnersOf, lastRows, avgLookup,
    avgMapEntries, accumTC, avgEntryValue, insertId, learners, learnerProgress, lpStep,
    initLP, addRow, courseOfRow, mkLearner, jsRound, snapA, snapB, snapsAB, mkRow,
    emptySnap, lrnBob, List.filterMap_cons]

theorem eval_v1_AB2 : v1Of snapsAB 2 = 100 := by
  norm_num [v1Of, avgLookup, avgMapEntries, accumTC, avgEntryValue, snapPrevRows, emptySnap,
    jsRound, snapA, snapB, snapsAB, mkRow]

theorem eval_v2_AB2 : v2Of snapsAB 2 = 100 := by
  norm_num [v2Of, avgLookup, avgMapEntries, accumTC, avgEntryValue, snapCurrRows, emptySnap,
    jsRound, snapA, snapB, snapsAB, mkRow]

theorem eval_allIds_Old3 : allIds snapsOld3 = [2, 1] := by
  norm_num [allIds, avgMapKeys, avgMapEntries, accumTC, insertId, snapOld, snapMid, snapNew,
    snapsOld3, mkRow]

theorem eval_supportPre_Old3 : supportPre snapsOld3 = [lrnOld2] := by
  norm_num [supportPre, comparison, classifyIds, allIds, avgMapKeys, avgMapEntries, accumTC,
    avgLookup, avgEntryValue, insertId, v1Of, v2Of, snapPrevRows, snapCurrRows, lastRows,
    learnersOf, enrichFor, synthLearner, findRowAcrossSnapshots, rowsForId, recentAvgsFor,
    avgMapsAt, emptySnap, learners, learnerProgress, lpStep, initLP, addRow, courseOfRow,
    mkLearner, jsRound, snapOld, snapMid, snapNew, snapsOld3, mkRow, List.range', lrnOld2]

theorem eval_finished_Old3 : finishedStudents snapsOld3 = [] := by
  norm_num [finishedStudents, learnerIdsOf, count100, learnersOf, lastRows, avgLookup,
    avgMapEntries, accumTC, avgEntryValue, insertId, learners, learnerProgress, lpStep,
    initLP, addRow, courseOfRow, mkLearner, jsRound, snapOld, snapMid, snapNew, snapsOld3,
    mkRow, emptySnap]

theorem eval_supportFinal_Old3 : supportListFinal snapsOld3 = [lrnOld2] := by
  rw [supportListFinal, eval_finished_Old3, eval_supportPre_Old3]
  simp

theorem eval_learnerIds_AB : (learnersOf snapsAB).map (fun l => l.id) = [1, 2] := by
  norm_num [learnersOf, lastRows, learners, learnerProgress, lpStep, initLP, addRow,
    courseOfRow, mkLearner, jsRound, emptySnap, snapA, snapB, snapsAB, mkRow]

/-! Helper lemmas about the association-list folds. -/

theorem mem_insertId {acc : List Int} {uid x : Int} :
    x ∈ insertId acc uid ↔ x ∈ acc ∨ x = uid := by
  unfold insertId
  split
  · rename_i h
    constructor
    · exact Or.inl
    · rintro (hx | rfl)
      · exact hx
      · exact h
  · simp [List.mem_append]

theorem mem_foldl_insertId : ∀ (l : List Int) (acc : List Int) (x : Int),
    x ∈ l.foldl insertId acc ↔ x ∈ acc ∨ x ∈ l := by
  intro l
  induction l with
  | nil => simp
  | cons a t ih =>
    intro acc x
    simp only [List.foldl_cons, List.mem_cons]
    rw [ih, mem_insertId]
    tauto

theorem mem_keys_accumTC {m : List (Int × ℚ × Nat)} {uid : Int} {v : ℚ} {x : Int} :
    x ∈ (accumTC m uid v).map (fun p => p.1)
      ↔ x ∈ m.map (fun p => p.1) ∨ x = uid := by
  unfold accumTC
  split
  · rename_i h
    have hk : ((m.map (fun p => if p.1 == uid then (p.1, p.2.1 + v, p.2.2 + 1) else p)).map
        (fun p => p.1)) = m.map (fun p => p.1) := by
      rw [List.map_map]
      refine List.map_congr_left (fun p _ => ?_)
      simp only [Function.comp_apply]
      split <;> rfl
    rw [hk]
    have huid : uid ∈ m.map (fun p => p.1) := by
      rcases List.any_eq_true.mp h with ⟨p, hp, hpe⟩
      exact List.mem_map.mpr ⟨p, hp, by simpa using hpe⟩
    constructor
    · exact Or.inl
    · rintro (hx | rfl)
      · exact hx
      · exact huid
  · simp [List.mem_append]

theorem mem_avgFold_keys : ∀ (rows : List ExcelRow) (m : List (Int × ℚ × Nat)) (x : Int),
    x ∈ (rows.foldl (fun m r => accumTC m r.userId r.completion) m).map (fun p => p.1)
      ↔ x ∈ m.map (fun p => p.1) ∨ ∃ r ∈ rows, r.userId = x := by
  intro rows
  induction rows with
  | nil => simp
  | cons a t ih =>
    intro m x
    simp only [List.foldl_cons]
    rw [ih, mem_keys_accumTC]
    constructor
    · rintro ((hx | rfl) | hr)
      · exact Or.inl hx
      · exact Or.inr ⟨a, List.mem_cons_self a t, rfl⟩
      · rcases hr with ⟨r, hr, hrx⟩
        exact Or.inr ⟨r, List.mem_cons_of_mem a hr, hrx⟩
    · rintro (hx | ⟨r, hr, hrx⟩)
      · exact Or.inl (Or.inl hx)
      · rcases List.mem_cons.mp hr with rfl | hrt
        · exact Or.inl (Or.inr hrx.symm)
        · exact Or.inr ⟨r, hrt, hrx⟩

theorem mem_avgMapKeys {rows : List ExcelRow} {x : Int} :
    x ∈ avgMapKeys rows ↔ ∃ r ∈ rows, r.userId = x := by
  have := mem_avgFold_keys rows [] x
  simpa [avgMapKeys, avgMapEntries] using this

theorem mem_allIds {snaps : List Snapshot} {x : Int} :
    x ∈ allIds snaps ↔ ∃ s ∈ snaps, ∃ r ∈ s.rows, r.userId = x := by
  unfold allIds
  rw [mem_foldl_insertId]
  simp [List.mem_flatten, mem_avgMapKeys]

theorem avgLookup_isSome {rows : List ExcelRow} {uid : Int} :
    (avgLookup rows uid).isSome = true ↔ uid ∈ avgMapKeys rows := by
  unfold avgLookup avgMapKeys
  cases hfind : (avgMapEntries rows).find? (fun p => p.1 == uid) with
  | none =>
    simp only [Option.map_none', Option.isSome_none, Bool.false_eq_true, false_iff]
    intro h
    rcases List.mem_map.mp h with ⟨p, hp, rfl⟩
    have := List.find?_eq_none.mp hfind p hp
    simp at this
  | some p =>
    have hmem := List.mem_of_find?_eq_some hfind
    have hpe : p.1 = uid := by simpa using List.find?_some hfind
    simp only [Option.map_some', Option.isSome_some, true_iff]
    exact List.mem_map.mpr ⟨p, hmem, hpe⟩

/-! Properties of the enrichment and the classification loop. -/

theorem enrichFor_id (snaps : List Snapshot) (uid : Int) :
    (enrichFor snaps uid).id = uid := by
  unfold enrichFor
  cases hfind : (learnersOf snaps).find? (fun l => l.id == uid) with
  | none => rfl
  | some ex =>
    have hpe : ex.id = uid := by simpa using List.find?_some hfind
    simpa using hpe

theorem enrichFor_recentAvgs (snaps : List Snapshot) (uid : Int) :
    (enrichFor snaps uid).recentAvgs = recentAvgsFor snaps uid := by
  unfold enrichFor
  cases (learnersOf snaps).find? (fun l => l.id == uid) <;> rfl

theorem mem_classifyIds_fst {snaps : List Snapshot} :
    ∀ {ids : List Int} {l : Learner},
      l ∈ (classifyIds snaps ids).1
        ↔ ∃ uid ∈ ids, v1Of snaps uid < v2Of snaps uid ∧ l = enrichFor snaps uid := by
  intro ids
  induction ids with
  | nil => simp [classifyIds]
  | cons a t ih =>
    intro l
    simp only [classifyIds]
    split_ifs with h1 h2
    · simp only [List.mem_cons, ih]
      constructor
      · rintro (rfl | ⟨uid, hu, hv, rfl⟩)
        · exact ⟨a, Or.inl rfl, h1, rfl⟩
        · exact ⟨uid, Or.inr hu, hv, rfl⟩
      · rintro ⟨uid, (rfl | hu), hv, rfl⟩
        · exact Or.inl rfl
        · exact Or.inr ⟨uid, hu, hv, rfl⟩
    · rw [ih]
      constructor
      · rintro ⟨uid, hu, hv, rfl⟩
        exact ⟨uid, List.mem_cons_of_mem a hu, hv, rfl⟩
      · rintro ⟨uid, hu, hv, rfl⟩
        rcases List.mem_cons.mp hu with rfl | hut
        · exact absurd hv h1
        · exact ⟨uid, hut, hv, rfl⟩
    · rw [ih]
      constructor
      · rintro ⟨uid, hu, hv, rfl⟩
        exact ⟨uid, List.mem_cons_of_mem a hu, hv, rfl⟩
      · rintro ⟨uid, hu, hv, rfl⟩
        rcases List.mem_cons.mp hu with rfl | hut
        · exact absurd hv h1
        · exact ⟨uid, hut, hv, rfl⟩

theorem mem_classifyIds_snd {snaps : List Snapshot} :
    ∀ {ids : List Int} {l : Learner},
      l ∈ (classifyIds snaps ids).2
        ↔ ∃ uid ∈ ids, v1Of snaps uid = v2Of snaps uid ∧ l = enrichFor snaps uid := by
  intro ids
  induction ids with
  | nil => simp [classifyIds]
  | cons a t ih =>
    intro l
    simp only [classifyIds]
    split_ifs with h1 h2
    · rw [ih]
      constructor
      · rintro ⟨uid, hu, hv, rfl⟩
        exact ⟨uid, List.mem_cons_of_mem a hu, hv, rfl⟩
      · rintro ⟨uid, hu, hv, rfl⟩
        rcases List.mem_cons.mp hu with rfl | hut
        · exact absurd hv (ne_of_lt h1)
        · exact ⟨uid, hut, hv, rfl⟩
    · simp only [List.mem_cons, ih]
      constructor
      · rintro (rfl | ⟨uid, hu, hv, rfl⟩)
        · exact ⟨a, Or.inl rfl, h2, rfl⟩
        · exact ⟨uid, Or.inr hu, hv, rfl⟩
      · rintro ⟨uid, (rfl | hu), hv, rfl⟩
        · exact Or.inl rfl
        · exact Or.inr ⟨uid, hu, hv, rfl⟩
    · rw [ih]
      constructor
      · rintro ⟨uid, hu, hv, rfl⟩
        exact ⟨uid, List.mem_cons_of_mem a hu, hv, rfl⟩
      · rintro ⟨uid, hu, hv, rfl⟩
        rcases List.mem_cons.mp hu with rfl | hut
        · exact absurd hv h2
        · exact ⟨uid, hut, hv, rfl⟩

theorem mem_improvedList {snaps : List Snapshot} {l : Learner} (h2 : 2 ≤ snaps.length) :
    l ∈ improvedList snaps
      ↔ ∃ uid ∈ allIds snaps, v1Of snaps uid < v2Of snaps uid ∧ l = enrichFor snaps uid := by
  unfold improvedList comparison
  rw [if_pos h2]
  exact mem_classifyIds_fst

theorem mem_supportPre {snaps : List Snapshot} {l : Learner} (h2 : 2 ≤ snaps.length) :
    l ∈ supportPre snaps
      ↔ ∃ uid ∈ allIds snaps, v1Of snaps uid = v2Of snaps uid ∧ l = enrichFor snaps uid := by
  unfold supportPre comparison
  rw [if_pos h2]
  exact mem_classifyIds_snd

/-! Invariants of the row aggregation. -/

/-- The bucket counters of an aggregate are the counts of its courses per
bucket, and the running sum is the sum of its courses' completions. -/
def LPInv (lp : LearnerProgress) : Prop :=
  lp.completed = lp.courses.countP (fun c => decide (100 ≤ c.completion))
  ∧ lp.inProgress = lp.courses.countP (fun c => decide (1 ≤ c.completion ∧ c.completion < 100))
  ∧ lp.notStarted = lp.courses.countP (fun c => decide (c.completion < 1))
  ∧ lp.totalCompletion = (lp.courses.map (fun c => c.completion)).sum

theorem LPInv_initLP (r : ExcelRow) : LPInv (initLP r) := by
  simp [LPInv, initLP]

theorem LPInv_addRow {lp : LearnerProgress} {r : ExcelRow} (h : LPInv lp) :
    LPInv (addRow lp r) := by
  obtain ⟨h1, h2, h3, h4⟩ := h
  unfold addRow LPInv
  dsimp only
  split_ifs with hc1 hc2
  · have hn2 : ¬ (1 ≤ r.completion ∧ r.completion < 100) := fun hx => absurd hx.2 (not_lt.mpr hc1)
    have hn3 : ¬ r.completion < 1 := not_lt.mpr (le_trans (by norm_num) hc1)
    simp [List.countP_append, List.countP_cons, courseOfRow, h1, h2, h3, h4, hc1, hn2, hn3]
  · have hn3 : ¬ r.completion < 1 := not_lt.mpr hc2.1
    simp [List.countP_append, List.countP_cons, courseOfRow, h1, h2, h3, h4, hc1, hc2, hn3]
  · have hn3 : r.completion < 1 := by
      rcases not_and_or.mp hc2 with hx | hx
      · exact lt_of_not_le hx
      · exact absurd (lt_of_not_le hc1) hx
    have hn2 : ¬ (1 ≤ r.completion ∧ r.completion < 100) := hc2
    simp [List.countP_append, List.countP_cons, courseOfRow, h1, h2, h3, h4, hc1, hn2, hn3]

theorem LPInv_lpStep {acc : List LearnerProgress} {r : ExcelRow}
    (h : ∀ lp ∈ acc, LPInv lp) : ∀ lp ∈ lpStep acc r, LPInv lp := by
  intro lp hlp
  unfold lpStep at hlp
  have hacc1 : ∀ lq ∈ (if acc.any (fun lp => lp.id == r.userId) then acc
      else acc ++ [initLP r]), LPInv lq := by
    intro lq hlq
    split at hlq
    · exact h lq hlq
    · rcases List.mem_append.mp hlq with hq | hq
      · exact h lq hq
      · rcases List.mem_singleton.mp hq with rfl
        exact LPInv_initLP r
  rcases List.mem_map.mp hlp with ⟨lq, hlq, rfl⟩
  by_cases hq : lq.id == r.userId
  · simpa [hq] using LPInv_addRow (hacc1 lq hlq)
  · simpa [hq] using hacc1 lq hlq

theorem LPInv_foldl : ∀ (rows : List ExcelRow) (acc : List LearnerProgress),
    (∀ lp ∈ acc, LPInv lp) → ∀ lp ∈ rows.foldl lpStep acc, LPInv lp := by
  intro rows
  induction rows with
  | nil => intro acc h; simpa using h
  | cons a t ih =>
    intro acc h
    simp only [List.foldl_cons]
    exact ih (lpStep acc a) (LPInv_lpStep h)

theorem LPInv_learnerProgress {rows : List ExcelRow} :
    ∀ lp ∈ learnerProgress rows, LPInv lp :=
  LPInv_foldl rows [] (by simp)

/-- The three-way bucket classification is a partition of the courses. -/
theorem bucket_partition (cs : List Course) :
    cs.countP (fun c => decide (100 ≤ c.completion))
      + cs.countP (fun c => decide (1 ≤ c.completion ∧ c.completion < 100))
      + cs.countP (fun c => decide (c.completion < 1)) = cs.length := by
  induction cs with
  | nil => rfl
  | cons a t ih =>
    simp only [List.countP_cons, List.length_cons]
    by_cases h1 : (100:ℚ) ≤ a.completion
    · have hn2 : ¬ a.completion < 100 := not_lt.mpr h1
      have hn3 : ¬ a.completion < 1 := not_lt.mpr (le_trans (by norm_num) h1)
      simp [h1, hn2, hn3] at ih ⊢
      omega
    · by_cases h2 : (1:ℚ) ≤ a.completion
      · have h2' : a.completion < 100 := lt_of_not_le h1
        have hn3 : ¬ a.completion < 1 := not_lt.mpr h2
        simp [h1, h2, h2', hn3] at ih ⊢
        omega
      · have h3 : a.completion < 1 := lt_of_not_le h2
        simp [h1, h2, h3] at ih ⊢
        omega

/-- `addRow` does not change the id of the aggregate. -/
theorem addRow_id (lp : LearnerProgress) (r : ExcelRow) : (addRow lp r).id = lp.id := by
  unfold addRow
  dsimp only
  split_ifs <;> rfl

theorem mem_keys_lpStep {acc : List LearnerProgress} {r : ExcelRow} {x : Int} :
    x ∈ (lpStep acc r).map (fun lp => lp.id)
      ↔ x ∈ acc.map (fun lp => lp.id) ∨ x = r.userId := by
  unfold lpStep
  split
  · rename_i h
    have hk : ((acc.map (fun lp => if lp.id == r.userId then addRow lp r else lp)).map
        (fun lp => lp.id)) = acc.map (fun lp => lp.id) := by
      rw [List.map_map]
      refine List.map_congr_left (fun lp _ => ?_)
      simp only [Function.comp_apply]
      split
      · exact addRow_id lp r
      · rfl
    rw [hk]
    have huid : r.userId ∈ acc.map (fun lp => lp.id) := by
      rcases List.any_eq_true.mp h with ⟨lp, hlp, hpe⟩
      exact List.mem_map.mpr ⟨lp, hlp, by simpa using hpe⟩
    constructor
    · exact Or.inl
    · rintro (hx | rfl)
      · exact hx
      · exact huid
  · rw [List.map_map]
    have hk : (List.map ((fun lp => lp.id) ∘ fun lp => if lp.id == r.userId then addRow lp r else lp)
        (acc ++ [initLP r])) = acc.map (fun lp => lp.id) ++ [r.userId] := by
      rw [List.map_append]
      congr 1
      · refine List.map_congr_left (fun lp _ => ?_)
        simp only [Function.comp_apply]
        split
        · exact addRow_id lp r
        · rfl
      · simp only [List.map_cons, List.map_nil, Function.comp_apply]
        have : (initLP r).id == r.userId := by simp [initLP]
        simp [this, addRow_id, initLP]
    rw [hk]
    simp [List.mem_append]

theorem mem_keys_lpFold : ∀ (rows : List ExcelRow) (acc : List LearnerProgress) (x : Int),
    x ∈ (rows.foldl lpStep acc).map (fun lp => lp.id)
      ↔ x ∈ acc.map (fun lp => lp.id) ∨ ∃ r ∈ rows, r.userId = x := by
  intro rows
  induction rows with
  | nil => simp
  | cons a t ih =>
    intro acc x
    simp only [List.foldl_cons]
    rw [ih, mem_keys_lpStep]
    constructor
    · rintro ((hx | rfl) | hr)
      · exact Or.inl hx
      · exact Or.inr ⟨a, List.mem_cons_self a t, rfl⟩
      · rcases hr with ⟨r, hr, hrx⟩
        exact Or.inr ⟨r, List.mem_cons_of_mem a hr, hrx⟩
    · rintro (hx | ⟨r, hr, hrx⟩)
      · exact Or.inl (Or.inl hx)
      · rcases List.mem_cons.mp hr with rfl | hrt
        · exact Or.inl (Or.inr hrx.symm)
        · exact Or.inr ⟨r, hrt, hrx⟩

theorem mem_keys_learnerProgress {rows : List ExcelRow} {x : Int} :
    x ∈ (learnerProgress rows).map (fun lp => lp.id) ↔ ∃ r ∈ rows, r.userId = x := by
  have := mem_keys_lpFold rows [] x
  simpa [learnerProgress] using this

/-- Learner ids of the finished records are those of the aggregates. -/
theorem keys_learners (rows : List ExcelRow) :
    (learners rows).map (fun l => l.id) = (learnerProgress rows).map (fun lp => lp.id) := by
  unfold learners
  rw [List.map_map]
  rfl

/-- The fields of a non-null analytics result, in terms of the stage
functions. -/
theorem computeAnalytics_fields {snaps : List Snapshot} {a : Analytics}
    (ha : computeAnalytics snaps = some a) :
    a.supportNeeded = supportPre snaps
    ∧ a.supportList = supportListFinal snaps
    ∧ a.finishedStudents = finishedStudents snaps
    ∧ a.improvedList = improvedList snaps
    ∧ a.learners = learnersOf snaps := by
  unfold computeAnalytics at ha
  split at ha
  · cases ha
  · injection ha with h
    subst h
    exact ⟨rfl, rfl, rfl, rfl, rfl⟩

theorem firstKnown_eq_head? : ∀ xs : List (Option Int),
    firstKnown xs = (xs.filterMap (fun x => x)).head?
  | [] => rfl
  | some v :: t => by simp [firstKnown, List.filterMap_cons]
  | none :: t => by simpa [firstKnown, List.filterMap_cons] using firstKnown_eq_head? t

theorem lastKnown_eq_getLast? (xs : List (Option Int)) :
    lastKnown xs = (xs.filterMap (fun x => x)).getLast? := by
  unfold lastKnown
  rw [firstKnown_eq_head?, List.filterMap_reverse, List.head?_reverse]

/-! The claims. -/

/-- C6: `computeAnalytics` applied to an empty snapshot sequence returns
null (`none`), and for every non-empty snapshot sequence it returns a
non-null `Analytics` structure. -/
theorem claimC6_empty_null :
    computeAnalytics [] = none
    ∧ ∀ snaps : List Snapshot, snaps ≠ [] → (computeAnalytics snaps).isSome = true := by
  constructor
  · rfl
  · intro snaps h
    unfold computeAnalytics
    rw [if_neg (by simpa using h)]
    rfl

theorem claimC6_witness : (computeAnalytics snapsAB).isSome = true :=
  claimC6_empty_null.2 snapsAB (by simp [snapsAB])

/-- C7: for every Learner Record produced by the row aggregator, the
completed, in-progress and not-started counters sum to the number of
courses, each course falling in exactly one bucket: `≥ 100` completed,
`≥ 1` and `< 100` in progress, otherwise (anything `< 1`) not started. -/
theorem claimC7_bucket_partition (rows : List ExcelRow) (l : Learner)
    (h : l ∈ learners rows) :
    l.completed + l.inProgress + l.notStarted = l.courses.length
    ∧ l.completed = l.courses.countP (fun c => decide (100 ≤ c.completion))
    ∧ l.inProgress = l.courses.countP (fun c => decide (1 ≤ c.completion ∧ c.completion < 100))
    ∧ l.notStarted = l.courses.countP (fun c => decide (c.completion < 1)) := by
  rcases List.mem_map.mp h with ⟨lp, hlp, rfl⟩
  obtain ⟨h1, h2, h3, -⟩ := LPInv_learnerProgress lp hlp
  have hcs : (mkLearner lp).courses = lp.courses := rfl
  have hc : (mkLearner lp).completed = lp.completed := rfl
  have hi : (mkLearner lp).inProgress = lp.inProgress := rfl
  have hn : (mkLearner lp).notStarted = lp.notStarted := rfl
  rw [hcs, hc, hi, hn, h1, h2, h3]
  exact ⟨bucket_partition lp.courses, rfl, rfl, rfl⟩

theorem claimC7_witness :
    lrnR ∈ learners roundingRows
    ∧ lrnR.completed + lrnR.inProgress + lrnR.notStarted = lrnR.courses.length :=
  ⟨by rw [eval_learners_rounding]; exact List.mem_singleton_self lrnR,
   (claimC7_bucket_partition roundingRows lrnR
     (by rw [eval_learners_rounding]; exact List.mem_singleton_self lrnR)).1⟩

/-- C8: a Learner Record's avgCompletion is the arithmetic mean of its
course completions rounded to the nearest integer with halves rounded up
(`⌊mean + 1/2⌋`), and 0 when the learner has no courses. -/
theorem claimC8_avg_rounding (rows : List ExcelRow) (l : Learner)
    (h : l ∈ learners rows) :
    l.totalCompletion = (l.courses.map (fun c => c.completion)).sum
    ∧ l.avgCompletion =
        (if 0 < l.courses.length
         then ⌊(l.courses.map (fun c => c.completion)).sum / (l.courses.length : ℚ) + 1/2⌋
         else 0) := by
  rcases List.mem_map.mp h with ⟨lp, hlp, rfl⟩
  obtain ⟨-, -, -, h4⟩ := LPInv_learnerProgress lp hlp
  have hcs : (mkLearner lp).courses = lp.courses := rfl
  have ht : (mkLearner lp).totalCompletion = lp.totalCompletion := rfl
  have ha : (mkLearner lp).avgCompletion =
      (if 0 < lp.courses.length then jsRound (lp.totalCompletion / (lp.courses.length : ℚ))
       else 0) := rfl
  rw [hcs, ht, ha, h4]
  exact ⟨rfl, rfl⟩

theorem claimC8_witness :
    lrnR ∈ learners roundingRows
    ∧ lrnR.avgCompletion = 51
    ∧ lrnR.avgCompletion =
        (if 0 < lrnR.courses.length
         then ⌊(lrnR.courses.map (fun c => c.completion)).sum / (lrnR.courses.length : ℚ) + 1/2⌋
         else 0) :=
  ⟨by rw [eval_learners_rounding]; exact List.mem_singleton_self lrnR,
   by norm_num [lrnR],
   (claimC8_avg_rounding roundingRows lrnR
     (by rw [eval_learners_rounding]; exact List.mem_singleton_self lrnR)).2⟩

/-- C5: no learner id in the finished list appears in the returned support
list: the post-exclusion support list (the `supportList` field of the
returned analytics) never contains a finished learner's id. -/
theorem claimC5_finished_excluded (snaps : List Snapshot) (l : Learner)
    (h : l ∈ supportListFinal snaps) :
    l.id ∉ (finishedStudents snaps).map (fun f => f.id)
    ∧ ∀ a, computeAnalytics snaps = some a →
        a.supportList = supportListFinal snaps
        ∧ a.finishedStudents = finishedStudents snaps := by
  constructor
  · unfold supportListFinal at h
    dsimp only at h
    split_ifs at h with hlen
    · intro hmem
      have hpred := (List.mem_filter.mp h).2
      simp at hpred
      rcases List.mem_map.mp hmem with ⟨f, hf, heq⟩
      exact hpred f hf heq
    · intro hmem
      rcases List.mem_map.mp hmem with ⟨f, hf, -⟩
      have : 0 < (finishedStudents snaps).length := List.length_pos.mpr (List.ne_nil_of_mem hf)
      exact hlen this
  · intro a ha
    obtain ⟨-, h1, h2, -, -⟩ := computeAnalytics_fields ha
    exact ⟨h1, h2⟩

theorem claimC5_witness :
    lrnOld2.id ∉ (finishedStudents snapsOld3).map (fun f => f.id) :=
  (claimC5_finished_excluded snapsOld3 lrnOld2
    (by rw [eval_supportFinal_Old3]; exact List.mem_singleton_self lrnOld2)).1

/-- C1: for every snapshot sequence with at least 2 snapshots and every
learner id considered by the two-snapshot comparison, the learner is in
the improved list iff v1 < v2, in the (pre-exclusion) support list iff
v1 = v2, and on regression (v1 > v2) in neither list. -/
theorem claimC1_classification (snaps : List Snapshot) (uid : Int)
    (h2 : 2 ≤ snaps.length) (hid : uid ∈ allIds snaps) :
    ((∃ l ∈ improvedList snaps, l.id = uid) ↔ v1Of snaps uid < v2Of snaps uid)
    ∧ ((∃ l ∈ supportPre snaps, l.id = uid) ↔ v1Of snaps uid = v2Of snaps uid)
    ∧ (v2Of snaps uid < v1Of snaps uid →
        (∀ l ∈ improvedList snaps, l.id ≠ uid) ∧ (∀ l ∈ supportPre snaps, l.id ≠ uid)) := by
  refine ⟨⟨?_, ?_⟩, ⟨?_, ?_⟩, ?_⟩
  · rintro ⟨l, hl, hlid⟩
    rcases (mem_improvedList h2).mp hl with ⟨u, hu, hv, rfl⟩
    rw [enrichFor_id] at hlid
    subst hlid
    exact hv
  · intro hv
    exact ⟨enrichFor snaps uid, (mem_improvedList h2).mpr ⟨uid, hid, hv, rfl⟩,
      enrichFor_id snaps uid⟩
  · rintro ⟨l, hl, hlid⟩
    rcases (mem_supportPre h2).mp hl with ⟨u, hu, hv, rfl⟩
    rw [enrichFor_id] at hlid
    subst hlid
    exact hv
  · intro hv
    exact ⟨enrichFor snaps uid, (mem_supportPre h2).mpr ⟨uid, hid, hv, rfl⟩,
      enrichFor_id snaps uid⟩
  · intro hgt
    constructor
    · intro l hl hlid
      rcases (mem_improvedList h2).mp hl with ⟨u, hu, hv, rfl⟩
      rw [enrichFor_id] at hlid
      subst hlid
      omega
    · intro l hl hlid
      rcases (mem_supportPre h2).mp hl with ⟨u, hu, hv, rfl⟩
      rw [enrichFor_id] at hlid
      subst hlid
      omega

theorem claimC1_witness :
    ((∃ l ∈ improvedList snapsAB, l.id = 1) ↔ v1Of snapsAB 1 < v2Of snapsAB 1)
    ∧ ((∃ l ∈ supportPre snapsAB, l.id = 1) ↔ v1Of snapsAB 1 = v2Of snapsAB 1)
    ∧ (v2Of snapsAB 1 < v1Of snapsAB 1 →
        (∀ l ∈ improvedList snapsAB, l.id ≠ 1) ∧ (∀ l ∈ supportPre snapsAB, l.id ≠ 1)) :=
  claimC1_classification snapsAB 1 (by simp [snapsAB]) (by rw [eval_allIds_AB]; simp)

/-- C2 counterexample: in `snapsOld3` learner 2 appears only in the
oldest of three snapshots — absent from both of the last two — yet the
computed (and returned) support list contains a learner with id 2, so the
considered set is not the union of the last two snapshots' average maps. -/
theorem claimC2_cex :
    (2:Int) ∈ allIds snapsOld3
    ∧ ((snapPrevRows snapsOld3 ++ snapCurrRows snapsOld3).all (fun r => r.userId != 2)) = true
    ∧ (supportListFinal snapsOld3).map (fun l => l.id) = [2] := by
  refine ⟨by rw [eval_allIds_Old3]; simp, ?_,
    by rw [eval_supportFinal_Old3]; simp [lrnOld2]⟩
  norm_num [snapPrevRows, snapCurrRows, emptySnap, snapOld, snapMid, snapNew, snapsOld3, mkRow]

/-- C2 amended: the set of learner ids considered by the comparison is
the union of the ids appearing in ANY snapshot's average map (not just
the last two); an id absent from the previous (resp. current) snapshot
gets v1 = 0 (resp. v2 = 0). -/
theorem claimC2_amended (snaps : List Snapshot) (uid : Int) :
    (uid ∈ allIds snaps ↔ ∃ s ∈ snaps, ∃ r ∈ s.rows, r.userId = uid)
    ∧ ((∀ r ∈ snapPrevRows snaps, r.userId ≠ uid) → v1Of snaps uid = 0)
    ∧ ((∀ r ∈ snapCurrRows snaps, r.userId ≠ uid) → v2Of snaps uid = 0) := by
  refine ⟨mem_allIds, ?_, ?_⟩
  · intro h
    have hnone : avgLookup (snapPrevRows snaps) uid = none := by
      cases ho : avgLookup (snapPrevRows snaps) uid with
      | none => rfl
      | some x =>
        exfalso
        have hs : (avgLookup (snapPrevRows snaps) uid).isSome = true := by rw [ho]; rfl
        rcases mem_avgMapKeys.mp (avgLookup_isSome.mp hs) with ⟨r, hr, hru⟩
        exact h r hr hru
    rw [v1Of, hnone]
    rfl
  · intro h
    have hnone : avgLookup (snapCurrRows snaps) uid = none := by
      cases ho : avgLookup (snapCurrRows snaps) uid with
      | none => rfl
      | some x =>
        exfalso
        have hs : (avgLookup (snapCurrRows snaps) uid).isSome = true := by rw [ho]; rfl
        rcases mem_avgMapKeys.mp (avgLookup_isSome.mp hs) with ⟨r, hr, hru⟩
        exact h r hr hru
    rw [v2Of, hnone]
    rfl

theorem claimC2_witness :
    ((2:Int) ∈ allIds snapsOld3 ↔ ∃ s ∈ snapsOld3, ∃ r ∈ s.rows, r.userId = 2)
    ∧ ((∀ r ∈ snapPrevRows snapsOld3, r.userId ≠ 2) → v1Of snapsOld3 2 = 0)
    ∧ ((∀ r ∈ snapCurrRows snapsOld3, r.userId ≠ 2) → v2Of snapsOld3 2 = 0) :=
  claimC2_amended snapsOld3 2

/-- C3 counterexample: with 2 snapshots, an enriched learner's recentAvgs
window has 2 entries, not 4: there is no null padding to length 4. -/
theorem claimC3_cex :
    (improvedList snapsAB).map (fun l => l.recentAvgs.length) = [2]
    ∧ ¬ (∀ l ∈ improvedList snapsAB, l.recentAvgs.length = 4) := by
  constructor
  · rw [eval_improved_AB]
    simp [lrnAlice]
  · intro hall
    have := hall lrnAlice (by rw [eval_improved_AB]; exact List.mem_singleton_self lrnAlice)
    simp [lrnAlice] at this

/-- C3 amended: every Enriched Learner's recentAvgs list has exactly
min(4, N) entries — the per-snapshot averages (none where the learner is
absent) for snapshot indices [max(0, N-4), N) in chronological order;
the list is NOT padded to 4 entries when fewer than 4 snapshots exist. -/
theorem claimC3_amended (snaps : List Snapshot) (l : Learner)
    (h2 : 2 ≤ snaps.length)
    (h : l ∈ improvedList snaps ∨ l ∈ supportPre snaps) :
    l.recentAvgs.length = min 4 snaps.length
    ∧ ∀ j, j < l.recentAvgs.length →
        l.recentAvgs.getD j none = avgMapsAt snaps (snaps.length - 4 + j) l.id := by
  have hl : l.recentAvgs = recentAvgsFor snaps l.id := by
    rcases h with h | h
    · rcases (mem_improvedList h2).mp h with ⟨u, hu, hv, rfl⟩
      rw [enrichFor_recentAvgs, enrichFor_id]
    · rcases (mem_supportPre h2).mp h with ⟨u, hu, hv, rfl⟩
      rw [enrichFor_recentAvgs, enrichFor_id]
  rw [hl]
  have hlen : (recentAvgsFor snaps l.id).length = min 4 snaps.length := by
    unfold recentAvgsFor
    rw [List.length_map, List.length_range']
    omega
  refine ⟨hlen, ?_⟩
  intro j hj
  rw [hlen] at hj
  unfold recentAvgsFor
  rw [List.getD_eq_getElem _ _ (by rw [List.length_map, List.length_range']; omega)]
  rw [List.getElem_map, List.getElem_range', one_mul]

theorem claimC3_witness :
    lrnAlice.recentAvgs.length = min 4 snapsAB.length
    ∧ ∀ j, j < lrnAlice.recentAvgs.length →
        lrnAlice.recentAvgs.getD j none
          = avgMapsAt snapsAB (snapsAB.length - 4 + j) lrnAlice.id :=
  claimC3_amended snapsAB lrnAlice (by simp [snapsAB])
    (Or.inl (by rw [eval_improved_AB]; exact List.mem_singleton_self lrnAlice))

/-- C4: a learner id present in the last snapshot's records is in the
finished list iff its per-snapshot average is ≥ 100 in at least two
snapshots of the whole sequence; the consistent-completers list is
identical to the finished list; with a single snapshot both are empty. -/
theorem claimC4_finished (snaps : List Snapshot) (uid : Int)
    (hne : snaps ≠ []) (hid : uid ∈ (learnersOf snaps).map (fun l => l.id)) :
    ((∃ l ∈ finishedStudents snaps, l.id = uid) ↔ 2 ≤ count100 snaps uid)
    ∧ consistentCompleters snaps = finishedStudents snaps
    ∧ (snaps.length = 1 → finishedStudents snaps = []) := by
  have hpos : 0 < snaps.length := List.length_pos.mpr hne
  refine ⟨⟨?_, ?_⟩, rfl, ?_⟩
  · rintro ⟨l, hl, hlid⟩
    unfold finishedStudents at hl
    rw [if_pos hpos] at hl
    rcases List.mem_filterMap.mp hl with ⟨u, hu, hfu⟩
    split at hfu
    · rename_i hcond
      have hlu : l.id = u := by simpa using List.find?_some hfu
      have huu : u = uid := by rw [← hlu, hlid]
      rwa [huu] at hcond
    · cases hfu
  · intro hcnt
    have hin : uid ∈ learnerIdsOf snaps := by
      unfold learnerIdsOf
      rw [mem_foldl_insertId]
      exact Or.inr hid
    have hsome : ((learnersOf snaps).find? (fun l => l.id == uid)).isSome = true := by
      rw [List.find?_isSome]
      rcases List.mem_map.mp hid with ⟨l, hl, hlid⟩
      exact ⟨l, hl, by simp [hlid]⟩
    rcases Option.isSome_iff_exists.mp hsome with ⟨l, hfind⟩
    refine ⟨l, ?_, by simpa using List.find?_some hfind⟩
    unfold finishedStudents
    rw [if_pos hpos]
    exact List.mem_filterMap.mpr ⟨uid, hin, by rw [if_pos hcnt]; exact hfind⟩
  · intro h1
    unfold finishedStudents
    rw [if_pos hpos, List.filterMap_eq_nil_iff]
    intro u hu
    have hle : count100 snaps u ≤ 1 := by
      unfold count100
      have := List.countP_le_length (fun v => decide (100 ≤ v))
        (l := snaps.map (fun s => (avgLookup s.rows u).getD 0))
      rw [List.length_map, h1] at this
      exact this
    rw [if_neg (by omega)]

theorem claimC4_witness :
    ((∃ l ∈ finishedStudents snapsAB, l.id = 2) ↔ 2 ≤ count100 snapsAB 2)
    ∧ consistentCompleters snapsAB = finishedStudents snapsAB
    ∧ (snapsAB.length = 1 → finishedStudents snapsAB = []) :=
  claimC4_finished snapsAB 2 (by simp [snapsAB]) (by rw [eval_learnerIds_AB]; simp)

/-- C9 counterexample: Alice improves 40 → 60, a positive delta, yet the
exported Δ value is "20%", not the "+20%" the claim requires. -/
theorem claimC9_cex :
    (improvedList snapsAB).map rowDelta = ["20%"]
    ∧ "20%" ≠ "+20%" := by
  constructor
  · rw [eval_improved_AB]
    rfl
  · decide

/-- C9 amended: the Δ column equals the last known (non-null) recent
average minus the first known one, rendered as the signed decimal string
followed by '%' with NO leading '+' for positive values, and is the empty
string when either endpoint is unknown. -/
theorem claimC9_amended (l : Learner) :
    rowDelta l =
      (match (l.recentAvgs.filterMap (fun x => x)).head?,
             (l.recentAvgs.filterMap (fun x => x)).getLast? with
       | some f, some s => toString (s - f) ++ "%"
       | _, _ => "") := by
  unfold rowDelta
  rw [firstKnown_eq_head?, lastKnown_eq_getLast?]

/-- C10: the returned supportNeeded field keeps the pre-exclusion support
classification while supportList is the post-exclusion list; supportList
is a sublist of supportNeeded, and a finished learner whose previous and
current averages are equal appears in supportNeeded but not supportList. -/
theorem claimC10_support_alias (snaps : List Snapshot) (uid : Int)
    (h2 : 2 ≤ snaps.length)
    (hfin : uid ∈ (finishedStudents snaps).map (fun f => f.id))
    (hv : v1Of snaps uid = v2Of snaps uid) :
    (∀ a, computeAnalytics snaps = some a →
        a.supportNeeded = supportPre snaps ∧ a.supportList = supportListFinal snaps)
    ∧ (supportListFinal snaps).Sublist (supportPre snaps)
    ∧ (∃ l ∈ supportPre snaps, l.id = uid)
    ∧ (∀ l ∈ supportListFinal snaps, l.id ≠ uid) := by
  refine ⟨?_, ?_, ?_, ?_⟩
  · intro a ha
    obtain ⟨hn, hs, -, -, -⟩ := computeAnalytics_fields ha
    exact ⟨hn, hs⟩
  · unfold supportListFinal
    dsimp only
    split_ifs with hflt
    · exact List.filter_sublist _
    · exact List.Sublist.refl _
  · have hidl : uid ∈ (learnersOf snaps).map (fun l => l.id) := by
      rcases List.mem_map.mp hfin with ⟨f, hf, rfl⟩
      unfold finishedStudents at hf
      rw [if_pos (by omega : 0 < snaps.length)] at hf
      rcases List.mem_filterMap.mp hf with ⟨u, hu, hfu⟩
      split at hfu
      · exact List.mem_map.mpr ⟨f, List.mem_of_find?_eq_some hfu, rfl⟩
      · cases hfu
    have hrow : ∃ r ∈ lastRows snaps, r.userId = uid := by
      unfold learnersOf at hidl
      rw [keys_learners] at hidl
      exact mem_keys_learnerProgress.mp hidl
    have hall : uid ∈ allIds snaps := by
      rw [mem_allIds]
      refine ⟨snaps.getD (snaps.length - 1) emptySnap, ?_, hrow⟩
      rw [List.getD_eq_getElem snaps emptySnap (by omega)]
      exact List.getElem_mem _
    exact ⟨enrichFor snaps uid, (mem_supportPre h2).mpr ⟨uid, hall, hv, rfl⟩,
      enrichFor_id snaps uid⟩
  · intro l hl hlid
    unfold supportListFinal at hl
    dsimp only at hl
    rcases List.mem_map.mp hfin with ⟨f, hf, hfid⟩
    rw [if_pos (List.length_pos.mpr (List.ne_nil_of_mem hf))] at hl
    have hpred := (List.mem_filter.mp hl).2
    simp at hpred
    exact hpred f hf (by rw [hlid, hfid])

theorem claimC10_witness :
    (∀ a, computeAnalytics snapsAB = some a →
        a.supportNeeded = supportPre snapsAB ∧ a.supportList = supportListFinal snapsAB)
    ∧ (supportListFinal snapsAB).Sublist (supportPre snapsAB)
    ∧ (∃ l ∈ supportPre snapsAB, l.id = 2)
    ∧ (∀ l ∈ supportListFinal snapsAB, l.id ≠ 2) :=
  claimC10_support_alias snapsAB 2 (by simp [snapsAB])
    (by rw [eval_finished_AB]; simp [lrnBob])
    (by rw [eval_v1_AB2, eval_v2_AB2])

end Dashboard
